import Mathlib

/-!
Verification development for the kdl parser package: a shallow embedding of
the positioned reader and the recursive-descent node parser, together with
theorems about the behaviour of the embedded code.

The byte stream is a list of natural numbers below 256, runes are Unicode
codepoints as natural numbers, and every looping function carries an explicit
fuel argument so that all definitions are structurally recursive and
executable.
-/

namespace Kdl

/-- Parse errors and internal signals. The variant eof models the io.EOF
sentinel, which callers compare against; outOfFuel is the artefact of the
fuel-based embedding and occurs on no trace considered in the theorems. -/
inductive PErr where
  | eof
  | outOfFuel
  | unexpectedSemicolon
  | unexpectedRightBracket
  | unexpectedLineCont
  | unexpectedSlashdash
  | unexpectedBareIdentifier
  | unexpectedTokenAfterValue
  | unexpectedTokenAfterIdentifier
  | significantInCont
  | invalidSyn
  | unexpectedEOF
  | invalidInitialChar
  | invalidBareIdent
  | invalidNumVal
  deriving Repr, DecidableEq

/-- The reader state: remaining buffered bytes, 1-based line, 0-based column,
and brace nesting depth, mirroring the reader struct of the source. -/
structure Rdr where
  buf : List Nat
  line : Nat
  pos : Nat
  depth : Nat
  deriving Repr, DecidableEq

/-- wrapReader initialises line to 1 and position to 0. -/
def wrapReader (bytes : List Nat) : Rdr :=
  { buf := bytes, line := 1, pos := 0, depth := 0 }

/-- Is a byte a UTF-8 continuation byte. -/
def isContByte (b : Nat) : Bool := 128 ≤ b && b < 192

/-- Decode the first UTF-8 rune of a byte list, returning the codepoint and
the number of bytes it occupies; none on an empty or malformed head. -/
def decodeRune : List Nat → Option (Nat × Nat)
  | [] => none
  | b1 :: rest =>
    if b1 < 128 then some (b1, 1)
    else if 192 ≤ b1 && b1 < 224 then
      match rest with
      | b2 :: _ =>
        if isContByte b2 then
          let c := (b1 - 192) * 64 + (b2 - 128)
          if 128 ≤ c then some (c, 2) else none
        else none
      | _ => none
    else if 224 ≤ b1 && b1 < 240 then
      match rest with
      | b2 :: b3 :: _ =>
        if isContByte b2 && isContByte b3 then
          let c := (b1 - 224) * 4096 + (b2 - 128) * 64 + (b3 - 128)
          if 2048 ≤ c then some (c, 3) else none
        else none
      | _ => none
    else if 240 ≤ b1 && b1 < 248 then
      match rest with
      | b2 :: b3 :: b4 :: _ =>
        if isContByte b2 && isContByte b3 && isContByte b4 then
          let c := (b1 - 240) * 262144 + (b2 - 128) * 4096 + (b3 - 128) * 64 + (b4 - 128)
          if 65536 ≤ c then some (c, 4) else none
        else none
      | _ => none
    else none

/-- Like bufio.ReadRune: on a malformed head byte the replacement character
U+FFFD is produced with a width of one byte; none only at end of input. -/
def readRuneRaw (l : List Nat) : Option (Nat × Nat) :=
  match l with
  | [] => none
  | _ :: _ =>
    match decodeRune l with
    | some cn => some cn
    | none => some (65533, 1)

/-- utf8.RuneLen for valid codepoints. -/
def runeLen (c : Nat) : Nat :=
  if c < 128 then 1 else if c < 2048 then 2 else if c < 65536 then 3 else 4

/-- Modelled from the spec: the newline predicate of the missing chars file
(line feed, carriage return, and the other KDL newline codepoints). -/
def isNewLine (c : Nat) : Bool :=
  c = 10 || c = 13 || c = 133 || c = 12 || c = 8232 || c = 8233

/-- Modelled from the spec: the whitespace predicate of the missing chars
file (tab, space, and the KDL unicode space codepoints); newlines are not
whitespace. -/
def isWhitespace (c : Nat) : Bool :=
  c = 9 || c = 32 || c = 160 || c = 5760 ||
  (8192 ≤ c && c ≤ 8202) || c = 8239 || c = 8287 || c = 12288

/-- The two-byte sequence checked for a slashdash. -/
def charsSlashDash : List Nat := [47, 45]

/-- The two-byte sequence checked for CRLF. -/
def charsCRLF : List Nat := [13, 10]

/-- The two-byte sequence opening a single-line comment. -/
def charsStartComment : List Nat := [47, 47]

/-- The two-byte sequence opening a block comment. -/
def charsStartCommentBlock : List Nat := [47, 42]

/-- The two-byte sequence closing a block comment. -/
def charsEndCommentBlock : List Nat := [42, 47]

/-- peekBytes: like bufio.Peek, fails with end of input when fewer than the
requested number of bytes remain. -/
def peekBytes (r : Rdr) (count : Nat) : Except PErr (List Nat) :=
  if count ≤ r.buf.length then .ok (r.buf.take count) else .error .eof

/-- isNext from the source reader: a fixed byte-sequence lookahead that does
not advance; the error of a failed peek is surfaced alongside false. -/
def isNext (r : Rdr) (expected : List Nat) : Bool × Option PErr :=
  match peekBytes r expected.length with
  | .error e => (false, some e)
  | .ok next => (decide (next = expected), none)

/-- readByte from the source reader: consumes one byte; a line feed or a
carriage return increments the line and resets the column. -/
def readByte (r : Rdr) : Except PErr Nat × Rdr :=
  match r.buf with
  | [] => (.error .eof, r)
  | b :: rest =>
    if b = 10 || b = 13 then
      (.ok b, { r with buf := rest, line := r.line + 1, pos := 0 })
    else
      (.ok b, { r with buf := rest, pos := r.pos + 1 })

/-- discardByte: readByte with the result ignored. -/
def discardByte (r : Rdr) : Rdr := (readByte r).2

/-- The CRLF-aware position bookkeeping loop shared by readBytes and
discardBytes in the source: a fold over the consumed bytes threading the
carriage-return flag. -/
def advanceOver : List Nat → Nat → Nat → Bool → Nat × Nat
  | [], line, pos, _ => (line, pos)
  | b :: rest, line, pos, wasCR =>
    if b = 10 && !wasCR then advanceOver rest (line + 1) 0 false
    else if b = 13 then advanceOver rest (line + 1) 0 true
    else advanceOver rest line (pos + 1) false

/-- discardBytes from the source reader: peeks the bytes to run the
bookkeeping fold, then drops them; when fewer bytes remain than requested the
readBytes fallback consumes what is available with the same bookkeeping. -/
def discardBytes (r : Rdr) (count : Nat) : Rdr :=
  if count ≤ r.buf.length then
    let lp := advanceOver (r.buf.take count) r.line r.pos false
    { r with buf := r.buf.drop count, line := lp.1, pos := lp.2 }
  else
    let lp := advanceOver r.buf r.line r.pos false
    { r with buf := [], line := lp.1, pos := lp.2 }

/-- peekRune: decode the next codepoint without advancing. -/
def peekRune (r : Rdr) : Except PErr Nat :=
  match readRuneRaw r.buf with
  | none => .error .eof
  | some (c, _) => .ok c

/-- readRune from the source reader: decode and advance one codepoint. On a
line feed (or another non-CR newline) the line is incremented and the column
reset. On a carriage return the next rune is inspected: at end of input, or
when it is a line feed (which is unread), the function returns with no
bookkeeping change; when it is any other rune that rune stays consumed and
the line is incremented, faithfully reproducing the missing unread of the
source. -/
def readRune (r : Rdr) : Except PErr Nat × Rdr :=
  match readRuneRaw r.buf with
  | none => (.error .eof, r)
  | some (c, n) =>
    let r1 : Rdr := { r with buf := r.buf.drop n }
    if isNewLine c then
      if c = 13 then
        match readRuneRaw r1.buf with
        | none => (.ok c, r1)
        | some (c2, n2) =>
          if c2 = 10 then (.ok c, r1)
          else (.ok c, { r1 with buf := r1.buf.drop n2, line := r.line + 1, pos := 0 })
      else (.ok c, { r1 with line := r.line + 1, pos := 0 })
    else (.ok c, { r1 with pos := r.pos + 1 })

/-- discardRunes: advance by decoded codepoints, ignoring errors. -/
def discardRunes (r : Rdr) : Nat → Rdr
  | 0 => r
  | n + 1 => discardRunes (readRune r).2 n

/-- Modelled from the spec: the tagged-union value data of the missing value
file (string, arbitrary-precision integer, decimal float as a scaled
integer, boolean, null). -/
inductive VData where
  | str (s : String)
  | int (i : Int)
  | float (mantissa : Int) (exp10 : Int)
  | bool (b : Bool)
  | null
  deriving Repr, DecidableEq

/-- Modelled from the spec: a value carries an optional type hint. -/
structure Value where
  typeHint : Option String
  data : VData
  deriving Repr, DecidableEq

/-- Modelled from the spec: the node record of the missing node file, with a
type hint, a name, ordered arguments, last-wins properties, and ordered
children. -/
structure Node where
  typeHint : Option String
  name : String
  args : List Value
  props : List (String × Value)
  children : List Node

/-- Modelled from the spec: NewNode creates a node with the given name and
everything else empty. -/
def newNode (name : String) : Node :=
  { typeHint := none, name := name, args := [], props := [], children := [] }

/-- Modelled from the spec: NewStringValue builds a string value with a
hint. -/
def newStringValue (s : String) (hint : Option String) : Value :=
  { typeHint := hint, data := .str s }

/-- Modelled from the spec: AddArg appends an argument. -/
def addArg (n : Node) (v : Value) : Node := { n with args := n.args ++ [v] }

/-- Modelled from the spec: AddArgValue appends an argument, like AddArg. -/
def addArgValue (n : Node) (v : Value) : Node := { n with args := n.args ++ [v] }

/-- Modelled from the spec: AddChild appends a child node. -/
def addChild (n : Node) (c : Node) : Node := { n with children := n.children ++ [c] }

/-- Modelled from the spec: SetPropValue writes a property, last write
winning on a duplicate key. -/
def setPropValue (n : Node) (k : String) (v : Value) : Node :=
  if n.props.any (fun p => p.1 = k) then
    { n with props := n.props.map (fun p => if p.1 = k then (k, v) else p) }
  else
    { n with props := n.props ++ [(k, v)] }

/-- Modelled from the spec: the valid-value-terminator predicate of the
missing chars file — whitespace, a newline, a semicolon, or a closing brace
(end of input is handled separately by the callers). -/
def isValidValueTerminator (c : Nat) : Bool :=
  isWhitespace c || isNewLine c || c = 59 || c = 125

/-- Modelled from the spec: the identifier stop modes — freestanding,
node-name, and equals-stop for property keys. -/
inductive StopMode where
  | stopModeFreestanding
  | stopModeSemicolon
  | stopModeEquals
  deriving Repr, DecidableEq

/-- Modelled from the spec: a codepoint ending a bare identifier —
whitespace, a newline, or a structural character, with the equals sign
additionally stopping in the equals-stop mode used for property keys. -/
def isIdentTerm (mode : StopMode) (c : Nat) : Bool :=
  isWhitespace c || isNewLine c ||
  c = 123 || c = 125 || c = 59 || c = 40 || c = 41 || c = 34 ||
  c = 92 || c = 47 || c = 60 || c = 62 || c = 91 || c = 93 || c = 44 ||
  (match mode with
   | .stopModeEquals => c = 61
   | _ => false)

/-- Build a Lean string from a list of codepoints. -/
def strOfCodes (cs : List Nat) : String :=
  String.mk (cs.map Char.ofNat)

/-- Digit predicate. -/
def isDigit (c : Nat) : Bool := 48 ≤ c && c ≤ 57

/-- Single-character escapes of the quoted-string scanner. -/
def escChar (c : Nat) : Option Nat :=
  if c = 110 then some 10
  else if c = 116 then some 9
  else if c = 114 then some 13
  else if c = 92 then some 92
  else if c = 34 then some 34
  else if c = 47 then some 47
  else if c = 98 then some 8
  else if c = 102 then some 12
  else none

/-- The scanning loop of the quoted-string scanner, over the bytes after the
opening quote; yields the content codepoints and the remaining bytes. -/
def qsAux : Nat → List Nat → List Nat → Except PErr (List Nat × List Nat)
  | 0, _, _ => .error .outOfFuel
  | fuel + 1, l, acc =>
    match readRuneRaw l with
    | none => .error .unexpectedEOF
    | some (c, n) =>
      if c = 34 then .ok (acc.reverse, l.drop n)
      else if c = 92 then
        match readRuneRaw (l.drop n) with
        | none => .error .unexpectedEOF
        | some (c2, n2) =>
          match escChar c2 with
          | some e => qsAux fuel (l.drop (n + n2)) (e :: acc)
          | none => .error .invalidSyn
      else qsAux fuel (l.drop n) (c :: acc)

/-- Modelled from the spec: the missing quoted-string scanner — consumes
from the opening quote to the matching unescaped closing quote, decoding
the standard single-character escapes; a missing opening quote is an invalid
syntax error and an unterminated string an unexpected end of input, with the
reader left untouched on failure so that the argument-or-property reader can
fall back to a value parse. -/
def readQuotedString (fuel : Nat) (r : Rdr) : Except PErr String × Rdr :=
  match r.buf with
  | 34 :: rest =>
    (match qsAux fuel rest [] with
     | .error e => (.error e, r)
     | .ok (cs, remaining) =>
       (.ok (strOfCodes cs), discardBytes r (r.buf.length - remaining.length)))
  | _ => (.error .invalidSyn, r)

/-- The closing-delimiter search of the raw-string scanner: scan until a
quote followed by the given number of pound signs. -/
def rawAux (hashes : Nat) : Nat → List Nat → List Nat → Except PErr (List Nat × List Nat)
  | 0, _, _ => .error .outOfFuel
  | fuel + 1, l, acc =>
    match readRuneRaw l with
    | none => .error .eof
    | some (c, n) =>
      if c = 34 && (l.drop n).take hashes = List.replicate hashes 35 then
        .ok (acc.reverse, (l.drop n).drop hashes)
      else rawAux hashes fuel (l.drop n) (c :: acc)

/-- Modelled from the spec: the missing raw-string scanner — after the
leading r and a run of pound signs, a quote opens the body, which runs
uninterpreted until a quote followed by the same run of pound signs; end of
input before the closing delimiter is an end-of-input error, with the reader
untouched on failure. -/
def readRawString (fuel : Nat) (r : Rdr) : Except PErr String × Rdr :=
  match r.buf with
  | 114 :: rest =>
    let hashes := (rest.takeWhile (fun b => b = 35)).length
    (match rest.drop hashes with
     | 34 :: body =>
       (match rawAux hashes fuel body [] with
        | .error e => (.error e, r)
        | .ok (cs, remaining) =>
          (.ok (strOfCodes cs), discardBytes r (r.buf.length - remaining.length)))
     | _ => (.error .invalidSyn, r))
  | _ => (.error .invalidSyn, r)

/-- Hex digit predicate. -/
def isHexDigit (c : Nat) : Bool :=
  isDigit c || (97 ≤ c && c ≤ 102) || (65 ≤ c && c ≤ 70)

/-- Hex digit value. -/
def hexVal (c : Nat) : Nat :=
  if isDigit c then c - 48 else if 97 ≤ c then c - 87 else c - 55

/-- Take a run of digits of the given base interleaved with underscores. -/
def digitRun (good : Nat → Bool) (l : List Nat) : List Nat :=
  l.takeWhile (fun b => good b || b = 95)

/-- Numeric value of a digit run after stripping underscores. -/
def runVal (base : Nat) (dv : Nat → Nat) (ds : List Nat) : Nat :=
  (ds.filter (fun b => decide (b ≠ 95))).foldl (fun acc b => acc * base + dv b) 0

/-- Count of real digits in a run (underscores excluded). -/
def runDigits (ds : List Nat) : Nat :=
  (ds.filter (fun b => decide (b ≠ 95))).length

/-- Modelled from the spec: the missing number scanner — an optional sign,
then a hex, octal or binary prefixed integer literal or a decimal literal
with optional fraction and exponent, underscores being insignificant
separators. A decimal with a dot, or with a negative exponent, is a float
stored as a scaled integer; an exponent that leaves the value integral keeps
it an integer, matching the expectations of the value tests. A prefix or
literal without digits is an invalid-numeric-value error, the reader being
untouched on failure. -/
def readNumber (r : Rdr) : Except PErr Value × Rdr :=
  let l := r.buf
  let signLen : Nat := match l with
    | b :: _ => if b = 43 || b = 45 then 1 else 0
    | [] => 0
  let sign : Int := match l with
    | 45 :: _ => -1
    | _ => 1
  let l1 := l.drop signLen
  match l1 with
  | 48 :: 120 :: rest =>
    let ds := digitRun isHexDigit rest
    if runDigits ds = 0 then (.error .invalidNumVal, r)
    else (.ok { typeHint := none, data := .int (sign * (runVal 16 hexVal ds : Nat)) },
          discardBytes r (signLen + 2 + ds.length))
  | 48 :: 111 :: rest =>
    let ds := digitRun (fun c => 48 ≤ c && c ≤ 55) rest
    if runDigits ds = 0 then (.error .invalidNumVal, r)
    else (.ok { typeHint := none, data := .int (sign * (runVal 8 (fun c => c - 48) ds : Nat)) },
          discardBytes r (signLen + 2 + ds.length))
  | 48 :: 98 :: rest =>
    let ds := digitRun (fun c => c = 48 || c = 49) rest
    if runDigits ds = 0 then (.error .invalidNumVal, r)
    else (.ok { typeHint := none, data := .int (sign * (runVal 2 (fun c => c - 48) ds : Nat)) },
          discardBytes r (signLen + 2 + ds.length))
  | _ =>
    let intPart := digitRun isDigit l1
    if runDigits intPart = 0 then (.error .invalidNumVal, r)
    else
      let afterInt := l1.drop intPart.length
      let fracPart : List Nat := match afterInt with
        | 46 :: rest => digitRun isDigit rest
        | _ => []
      let hasDot : Bool := match afterInt with
        | 46 :: _ => true
        | _ => false
      let fracLen := if hasDot then fracPart.length + 1 else 0
      let afterFrac := afterInt.drop fracLen
      let expInfo : Option (Int × Nat) := match afterFrac with
        | 101 :: 43 :: rest =>
          let ds := digitRun isDigit rest
          if runDigits ds = 0 then none else some ((runVal 10 (fun c => c - 48) ds : Nat), ds.length + 2)
        | 101 :: 45 :: rest =>
          let ds := digitRun isDigit rest
          if runDigits ds = 0 then none else some (-(runVal 10 (fun c => c - 48) ds : Nat), ds.length + 2)
        | 101 :: rest =>
          let ds := digitRun isDigit rest
          if runDigits ds = 0 then none else some ((runVal 10 (fun c => c - 48) ds : Nat), ds.length + 1)
        | 69 :: 43 :: rest =>
          let ds := digitRun isDigit rest
          if runDigits ds = 0 then none else some ((runVal 10 (fun c => c - 48) ds : Nat), ds.length + 2)
        | 69 :: 45 :: rest =>
          let ds := digitRun isDigit rest
          if runDigits ds = 0 then none else some (-(runVal 10 (fun c => c - 48) ds : Nat), ds.length + 2)
        | 69 :: rest =>
          let ds := digitRun isDigit rest
          if runDigits ds = 0 then none else some ((runVal 10 (fun c => c - 48) ds : Nat), ds.length + 1)
        | _ => none
      let expVal : Int := match expInfo with
        | some (e, _) => e
        | none => 0
      let expLen : Nat := match expInfo with
        | some (_, n) => n
        | none => 0
      let total := signLen + intPart.length + fracLen + expLen
      let mantissa : Int :=
        sign * ((runVal 10 (fun c => c - 48) intPart : Nat) * 10 ^ runDigits fracPart
                 + (runVal 10 (fun c => c - 48) fracPart : Nat))
      let scale : Int := expVal - (runDigits fracPart : Nat)
      if hasDot || expVal < 0 then
        (.ok { typeHint := none, data := .float mantissa scale }, discardBytes r total)
      else
        (.ok { typeHint := none, data := .int (sign * (runVal 10 (fun c => c - 48) intPart : Nat) * 10 ^ expVal.toNat) },
         discardBytes r total)

/-- Modelled from the spec: the missing boolean scanner — matches the exact
literal true or false; anything else is an invalid syntax error with the
reader untouched. -/
def readBool (r : Rdr) : Except PErr Bool × Rdr :=
  if r.buf.take 4 = [116, 114, 117, 101] then (.ok true, discardBytes r 4)
  else if r.buf.take 5 = [102, 97, 108, 115, 101] then (.ok false, discardBytes r 5)
  else (.error .invalidSyn, r)

/-- Modelled from the spec: the missing null scanner — matches the exact
literal null; anything else is an invalid syntax error with the reader
untouched. -/
def readNull (r : Rdr) : Except PErr Unit × Rdr :=
  if r.buf.take 4 = [110, 117, 108, 108] then (.ok (), discardBytes r 4)
  else (.error .invalidSyn, r)

/-- The scanning loop of the bare-identifier scanner: collect codepoints up
to a stop character or end of input, also returning the byte length
consumed. -/
def bareAux (mode : StopMode) : Nat → List Nat → List Nat → Nat → (List Nat × Nat)
  | 0, _, acc, used => (acc.reverse, used)
  | fuel + 1, l, acc, used =>
    match readRuneRaw l with
    | none => (acc.reverse, used)
    | some (c, n) =>
      if isIdentTerm mode c then (acc.reverse, used)
      else bareAux mode fuel (l.drop n) (c :: acc) (used + n)

/-- Modelled from the spec: the missing bare-identifier scanner — collects
codepoints up to a stop character; an empty result or a leading digit is an
invalid-initial-character error, and a leading sign followed by a digit is an
invalid-bare-identifier error (the token looks numeric); on failure the
reader is untouched so the caller can re-read the token as a value. -/
def readBareIdentifier (fuel : Nat) (mode : StopMode) (r : Rdr) : Except PErr String × Rdr :=
  let scanned := bareAux mode fuel r.buf [] 0
  match scanned.1 with
  | [] => (.error .invalidInitialChar, r)
  | c :: rest =>
    if isDigit c then (.error .invalidInitialChar, r)
    else if (c = 45 || c = 43) && (match rest with
       | c2 :: _ => isDigit c2
       | [] => false) then (.error .invalidBareIdent, r)
    else (.ok (strOfCodes (c :: rest)), discardBytes r scanned.2)

/-- Modelled from the spec: the missing identifier scanner — a quote
dispatches to the quoted-string scanner and an r followed by a pound sign or
a quote to the raw-string scanner, both marked quoted; anything else is a
bare identifier. The boolean of the triple tells whether the identifier was
quoted. -/
def readIdentifier (fuel : Nat) (mode : StopMode) (r : Rdr) : Except PErr String × Bool × Rdr :=
  match peekRune r with
  | .error e => (.error e, false, r)
  | .ok c =>
    if c = 34 then
      match readQuotedString fuel r with
      | (.error e, r) => (.error e, true, r)
      | (.ok s, r) => (.ok s, true, r)
    else if c = 114 && (match r.buf with
        | _ :: b2 :: _ => b2 = 35 || b2 = 34
        | _ => false) then
      match readRawString fuel r with
      | (.error e, r) => (.error e, true, r)
      | (.ok s, r) => (.ok s, true, r)
    else
      match readBareIdentifier fuel mode r with
      | (.error e, r) => (.error e, false, r)
      | (.ok s, r) => (.ok s, false, r)

/-- Modelled from the spec: the missing type-hint scanner — when the next
significant character is an opening parenthesis, a single freestanding
identifier followed by a closing parenthesis is required; another token
before the closing parenthesis is an invalid syntax error and end of input
inside the hint an unexpected end of input. Without an opening parenthesis
the hint is simply absent. -/
def readMaybeTypeHint (fuel : Nat) (r : Rdr) : Except PErr (Option String) × Rdr :=
  match peekRune r with
  | .error _ => (.ok none, r)
  | .ok c =>
    if c = 40 then
      let r := discardByte r
      match readIdentifier fuel .stopModeFreestanding r with
      | (.error e, _, r) =>
        (if e = .eof then (.error .unexpectedEOF, r) else (.error e, r))
      | (.ok i, _, r) =>
        match peekRune r with
        | .error _ => (.error .unexpectedEOF, r)
        | .ok c2 =>
          if c2 = 41 then (.ok (some i), discardByte r)
          else (.error .invalidSyn, r)
    else (.ok none, r)

/-- Modelled from the spec: the missing value scanner — dispatches on the
next significant character to the quoted-string, raw-string, boolean, null
or number scanner, an unrecognized leading character being an invalid
syntax error; the hint of the produced value is set by the caller. -/
def readValue (fuel : Nat) (r : Rdr) : Except PErr Value × Rdr :=
  match peekRune r with
  | .error e => (.error e, r)
  | .ok c =>
    if c = 34 then
      match readQuotedString fuel r with
      | (.error e, r) => (.error e, r)
      | (.ok s, r) => (.ok { typeHint := none, data := .str s }, r)
    else if c = 114 then
      match readRawString fuel r with
      | (.error e, r) => (.error e, r)
      | (.ok s, r) => (.ok { typeHint := none, data := .str s }, r)
    else if c = 116 || c = 102 then
      match readBool r with
      | (.error e, r) => (.error e, r)
      | (.ok b, r) => (.ok { typeHint := none, data := .bool b }, r)
    else if c = 110 then
      match readNull r with
      | (.error e, r) => (.error e, r)
      | (.ok _, r) => (.ok { typeHint := none, data := .null }, r)
    else if isDigit c || c = 43 || c = 45 then
      readNumber r
    else (.error .invalidSyn, r)

/-- skipUntilNewLine from the source: discards up to the next line break or
end of input. A CRLF pair is checked first; with afterBreak both its bytes
are discarded, otherwise only the carriage return, leaving the line feed.
A lone newline rune is discarded only with afterBreak. An isNext failure is
swallowed, and end of input returns success. -/
def skipUntilNewLine : Nat → Bool → Rdr → Except PErr Unit × Rdr
  | 0, _, r => (.error .outOfFuel, r)
  | fuel + 1, afterBreak, r =>
    match isNext r charsCRLF with
    | (true, none) =>
      if afterBreak then (.ok (), discardBytes r 2) else (.ok (), discardByte r)
    | _ =>
      match peekRune r with
      | .error e => if e = .eof then (.ok (), r) else (.error e, r)
      | .ok c =>
        if isNewLine c then
          (if afterBreak then (.ok (), discardByte r) else (.ok (), r))
        else skipUntilNewLine fuel afterBreak (discardByte r)

/-- The nested block-comment loop of readUntilSignificant: tracks the
nesting depth, raising it on each opener and lowering it on each closer,
returning to the outer loop once the depth reaches zero; an isNext failure
(end of input inside the comment) is propagated. -/
def blockComment : Nat → Nat → Rdr → Except PErr Unit × Rdr
  | 0, _, r => (.error .outOfFuel, r)
  | fuel + 1, depth, r =>
    match isNext r charsStartCommentBlock with
    | (_, some e) => (.error e, r)
    | (true, none) => blockComment fuel (depth + 1) (discardBytes r 2)
    | (false, none) =>
      match isNext r charsEndCommentBlock with
      | (_, some e) => (.error e, r)
      | (true, none) =>
        if depth ≤ 1 then (.ok (), discardBytes r 2)
        else blockComment fuel (depth - 1) (discardBytes r 2)
      | (false, none) => blockComment fuel depth (discardByte r)

/-- The loop of readUntilSignificant with the escaped-line flag made an
explicit argument: whitespace is discarded; inside a node a backslash sets
the flag; a single-line comment ends the call through skipUntilNewLine after
the break; a block comment is skipped with nesting; with the flag set a
newline restarts the loop with the flag cleared while any other significant
rune is an unexpected-significant-token-in-escline error; without the flag
the first significant rune ends the call. Errors of the two comment
lookaheads are swallowed as in the source. -/
def rusAux : Nat → Bool → Bool → Rdr → Except PErr Unit × Rdr
  | 0, _, _, r => (.error .outOfFuel, r)
  | fuel + 1, insideNode, escapedLine, r =>
    match peekRune r with
    | .error e => (.error e, r)
    | .ok c =>
      if isWhitespace c then
        rusAux fuel insideNode escapedLine (discardBytes r (runeLen c))
      else if c = 92 && insideNode then
        rusAux fuel insideNode true (discardByte r)
      else
        match isNext r charsStartComment with
        | (true, none) => skipUntilNewLine (fuel + 1) true (discardBytes r 2)
        | _ =>
          match isNext r charsStartCommentBlock with
          | (true, none) =>
            (match blockComment (fuel + 1) 1 (discardBytes r 2) with
             | (.error e, r) => (.error e, r)
             | (.ok _, r) => rusAux fuel insideNode escapedLine r)
          | _ =>
            if escapedLine then
              if isNewLine c then
                match skipUntilNewLine (fuel + 1) true r with
                | (.error e, r) => (.error e, r)
                | (.ok _, r) => rusAux fuel insideNode false r
              else (.error .significantInCont, r)
            else (.ok (), r)

/-- readUntilSignificant from the source: skip whitespace and comments, and
inside a node honour line continuations; never skips a newline on its own. -/
def readUntilSignificant (fuel : Nat) (insideNode : Bool) (r : Rdr) : Except PErr Unit × Rdr :=
  rusAux fuel insideNode false r

/-- readArgOrProp from the source: an optional type hint, then — only
without a hint — an attempt at an equals-stop identifier. A successful
identifier followed by end of input or a valid terminator is a quoted string
argument or, bare, an unexpected-bare-identifier error; followed by an
equals sign it is a property key whose value is then read; any other
follower is an unexpected-token-after-identifier error. A failed identifier
falls through to reading a plain value, which must be followed by end of
input or a valid terminator. With discard set the node is returned
unchanged on the success paths. -/
def readArgOrProp (fuel : Nat) (r : Rdr) (dest : Node) (discard : Bool) :
    Except PErr Node × Rdr :=
  match readMaybeTypeHint fuel r with
  | (.error e, r) => (.error e, r)
  | (.ok hint, r) =>
    let tryValue (r : Rdr) : Except PErr Node × Rdr :=
      match readValue fuel r with
      | (.error e, r) => (.error e, r)
      | (.ok v, r) =>
        let v : Value := { v with typeHint := hint }
        match peekRune r with
        | .error .eof => (.ok (if discard then dest else addArg dest v), r)
        | .error e => (.error e, r)
        | .ok c =>
          if isValidValueTerminator c then
            (.ok (if discard then dest else addArg dest v), r)
          else (.error .unexpectedTokenAfterValue, r)
    match hint with
    | some _ => tryValue r
    | none =>
      match readIdentifier fuel .stopModeEquals r with
      | (.error _, _, r) => tryValue r
      | (.ok i, quoted, r) =>
        match peekRune r with
        | .error .eof =>
          if quoted then
            (.ok (if discard then dest else addArg dest (newStringValue i none)), r)
          else (.error .unexpectedBareIdentifier, r)
        | .error e => (.error e, r)
        | .ok c =>
          if isValidValueTerminator c then
            (if quoted then
              (.ok (if discard then dest else addArgValue dest (newStringValue i none)), r)
             else (.error .unexpectedBareIdentifier, r))
          else if c = 61 then
            let r := discardByte r
            match readValue fuel r with
            | (.error e, r) => (.error e, r)
            | (.ok v, r) =>
              (.ok (if discard then dest else setPropValue dest i v), r)
          else (.error .unexpectedTokenAfterIdentifier, r)

/-- The outcome of the skipping loop at the head of readNodes: stop the
whole call (successfully with none, or with an error), or proceed to parse
a node. -/
inductive PreludeOut where
  | stop (e : Option PErr)
  | go
  deriving Repr, DecidableEq

/-- The inner loop of readNodes: skip insignificant content; end of input at
depth zero is a successful stop; a semicolon or a top-level backslash is an
error; a closing brace is discarded and stops the call, an error only at
depth zero; a newline is skipped and the loop restarts; any other
significant rune proceeds to node parsing. -/
def nodesPrelude : Nat → Rdr → PreludeOut × Rdr
  | 0, r => (.stop (some .outOfFuel), r)
  | fuel + 1, r =>
    match readUntilSignificant (fuel + 1) false r with
    | (.error e, r) =>
      if e = .eof && r.depth = 0 then (.stop none, r) else (.stop (some e), r)
    | (.ok _, r) =>
      match peekRune r with
      | .error e =>
        if e = .eof && r.depth = 0 then (.stop none, r) else (.stop (some e), r)
      | .ok c =>
        if !isNewLine c then
          if c = 59 then (.stop (some .unexpectedSemicolon), r)
          else if c = 125 then
            (if r.depth = 0 then (.stop (some .unexpectedRightBracket), discardByte r)
             else (.stop none, discardByte r))
          else if c = 92 then (.stop (some .unexpectedLineCont), r)
          else (.go, r)
        else
          match skipUntilNewLine (fuel + 1) true r with
          | (.error e, r) => (.stop (some e), r)
          | (.ok _, r) => nodesPrelude fuel r

mutual

/-- readNodes from the source as a loop with an explicit accumulator: after
the skipping prelude, an optional slashdash is consumed, insignificant
content is skipped again (end of input right after a slashdash being an
unexpected-slashdash error), one node is parsed, and it is appended unless
suppressed; an error of the slashdash lookahead itself is returned as is. -/
def readNodesAux : Nat → List Node → Rdr → Except PErr (List Node) × Rdr
  | 0, _, r => (.error .outOfFuel, r)
  | fuel + 1, acc, r =>
    match nodesPrelude (fuel + 1) r with
    | (.stop none, r) => (.ok acc, r)
    | (.stop (some e), r) => (.error e, r)
    | (.go, r) =>
      match isNext r charsSlashDash with
      | (_, some e) => (.error e, r)
      | (slashdash, none) =>
        let r := if slashdash then discardBytes r 2 else r
        match readUntilSignificant (fuel + 1) true r with
        | (.error e, r) =>
          if e = .eof then (.error .unexpectedSlashdash, r) else (.error e, r)
        | (.ok _, r) =>
          match readNode fuel r with
          | (.error e, r) => (.error e, r)
          | (.ok node, r) =>
            readNodesAux fuel (if slashdash then acc else acc ++ [node]) r

/-- readNode from the source: an optional type hint, the node name as an
identifier in semicolon stop mode, then the body loop. -/
def readNode : Nat → Rdr → Except PErr Node × Rdr
  | 0, r => (.error .outOfFuel, r)
  | fuel + 1, r =>
    match readMaybeTypeHint (fuel + 1) r with
    | (.error e, r) => (.error e, r)
    | (.ok hint, r) =>
      match readIdentifier (fuel + 1) .stopModeSemicolon r with
      | (.error e, _, r) => (.error e, r)
      | (.ok name, _, r) =>
        readNodeBody fuel { newNode name with typeHint := hint } r

/-- The body loop of readNode: skip insignificant content (end of input
ending the node successfully); consume an optional slashdash whose lookahead
error is swallowed; skip again (end of input now an unexpected-slashdash
error); then branch on the next rune — a newline is consumed as a rune and
ends the node, a semicolon is consumed as a byte and ends the node, a
closing brace ends the node unconsumed (a slashdash before any of these is
an unexpected-slashdash error), an opening brace parses a children block at
raised depth, attaches the children unless suppressed and then discards one
more byte, and anything else is an argument or property. -/
def readNodeBody : Nat → Node → Rdr → Except PErr Node × Rdr
  | 0, _, r => (.error .outOfFuel, r)
  | fuel + 1, node, r =>
    match readUntilSignificant (fuel + 1) true r with
    | (.error e, r) => if e = .eof then (.ok node, r) else (.error e, r)
    | (.ok _, r) =>
      let sdLook := isNext r charsSlashDash
      let slashdash := sdLook.1
      let r := if slashdash then discardBytes r 2 else r
      match readUntilSignificant (fuel + 1) true r with
      | (.error e, r) =>
        if e = .eof then (.error .unexpectedSlashdash, r) else (.error e, r)
      | (.ok _, r) =>
        match peekRune r with
        | .error e => (.error e, r)
        | .ok c =>
          if isNewLine c then
            let r := discardRunes r 1
            (if slashdash then (.error .unexpectedSlashdash, r) else (.ok node, r))
          else if c = 59 then
            let r := discardByte r
            (if slashdash then (.error .unexpectedSlashdash, r) else (.ok node, r))
          else if c = 125 then
            (if slashdash then (.error .unexpectedSlashdash, r) else (.ok node, r))
          else if c = 123 then
            let r := discardByte r
            let r : Rdr := { r with depth := r.depth + 1 }
            match readNodesAux fuel [] r with
            | (.error e, r) => (.error e, r)
            | (.ok children, r) =>
              let r : Rdr := { r with depth := r.depth - 1 }
              let node := if slashdash then node else children.foldl addChild node
              let r := discardByte r
              readNodeBody fuel node r
          else
            match readArgOrProp (fuel + 1) r node slashdash with
            | (.error e, r) => (.error e, r)
            | (.ok node, r) => readNodeBody fuel node r

end

/-- readNodes of the source, starting from an empty accumulator. -/
def readNodes (fuel : Nat) (r : Rdr) : Except PErr (List Node) × Rdr :=
  readNodesAux fuel [] r

/-- Modelled from the spec: the missing document-level entry point — it runs
readNodes over a fresh positioned reader and, when the parse fails, wraps
the error with the current line and column of the reader at the point of failure
before surfacing it; internal end-of-input signals were already converted to
success inside readNodes at the valid stopping points. -/
def parseDocument (fuel : Nat) (bytes : List Nat) : Except (PErr × Nat × Nat) (List Node) :=
  match readNodesAux fuel [] (wrapReader bytes) with
  | (.ok nodes, _) => .ok nodes
  | (.error e, r) => .error (e, r.line, r.pos)

/-- Encode an ASCII string as its byte list; used only to build the concrete
inputs of the theorems, all of which are ASCII. -/
def asciiBytes (s : String) : List Nat :=
  s.data.map Char.toNat

set_option maxHeartbeats 4000000
set_option maxRecDepth 8000

/-- Suppression lemma: readArgOrProp with the discard flag set advances the
reader and fails exactly as without the flag, and on success returns the
destination node unchanged. -/
theorem readArgOrProp_discard_eq (fuel : Nat) (r : Rdr) (n : Node) :
    readArgOrProp fuel r n true =
      ((readArgOrProp fuel r n false).1.map (fun _ => n),
       (readArgOrProp fuel r n false).2) := by
  unfold readArgOrProp
  dsimp only
  repeat' split
  all_goals (try (exact absurd (Eq.refl true) (by assumption)))
  all_goals simp [Except.map]

/-- Claim C1: parsing the document consisting of the node named node with
the integer argument 1, the property key bound to the string val, and the
children block holding the single node child, succeeds and yields exactly
that one-node document. -/
theorem c1_roundtrip :
    (readNodes 64 (wrapReader (asciiBytes "node 1 key=\"val\" \x7b child; \x7d"))).1 =
      .ok [{ typeHint := none, name := "node",
             args := [{ typeHint := none, data := .int 1 }],
             props := [("key", { typeHint := none, data := .str "val" })],
             children := [{ typeHint := none, name := "child",
                            args := [], props := [], children := [] }] }] := rfl

/-- Claim C2, code evaluation: readNode does leave a closing brace
unconsumed, but after a children block the reader is NOT positioned
immediately after the closing brace — the recursive readNodes has already
consumed the brace and readNode discards one further byte. A newline
directly after the brace is therefore swallowed, the following node name is
read as part of the enclosing body and rejected as a bare identifier, while
the same document with a space before the newline parses. -/
theorem c2_children_brace_eval :
    readNode 64 (wrapReader (asciiBytes "b \x7d")) =
      (.ok { typeHint := none, name := "b", args := [], props := [], children := [] },
       { buf := [125], line := 1, pos := 2, depth := 0 })
    ∧ (readNodes 64 (wrapReader (asciiBytes "a \x7bb\x7d\nc\n"))).1 =
        .error .unexpectedBareIdentifier
    ∧ (readNodes 64 (wrapReader (asciiBytes "a \x7bb\x7d \nc\n"))).1 =
        .ok [{ typeHint := none, name := "a", args := [], props := [],
               children := [{ typeHint := none, name := "b",
                              args := [], props := [], children := [] }] },
             { typeHint := none, name := "c", args := [], props := [], children := [] }] :=
  ⟨rfl, rfl, rfl⟩

/-- Claim C3, code evaluation: end of input at depth zero between nodes is
success and end of input inside a block, or right after a slashdash, is an
error — but a document whose final significant token is a single byte
directly before end of input fails, because the two-byte slashdash lookahead
in readNodes surfaces the end-of-input error of peekBytes; the same final
node followed by a newline, or a final token of two bytes, parses. -/
theorem c3_eof_between_nodes_eval :
    (readNodes 64 (wrapReader [120])).1 = .error .eof
    ∧ (readNodes 64 (wrapReader (asciiBytes "x\n"))).1 =
        .ok [{ typeHint := none, name := "x", args := [], props := [], children := [] }]
    ∧ (readNodes 64 (wrapReader (asciiBytes "ab"))).1 =
        .ok [{ typeHint := none, name := "ab", args := [], props := [], children := [] }]
    ∧ (readNodes 64 (wrapReader (asciiBytes "a \x7b"))).1 = .error .eof
    ∧ (readNodes 64 (wrapReader (asciiBytes "/-"))).1 = .error .unexpectedSlashdash :=
  ⟨rfl, rfl, rfl, rfl, rfl⟩

/-- Claim C4, code evaluation: a balanced nested block comment is skipped as
one insignificant unit, but an unterminated block comment does NOT fail the
parse — readUntilSignificant returns the end-of-input signal from inside the
comment and readNodes converts it to success at depth zero, so the document
parses as an empty node list. -/
theorem c4_block_comment_eval :
    readUntilSignificant 64 false (wrapReader (asciiBytes "/* /* */ */x")) =
      (.ok (), { buf := [120], line := 1, pos := 11, depth := 0 })
    ∧ (readNodes 64 (wrapReader (asciiBytes "/* /* */ */ a\n"))).1 =
        .ok [{ typeHint := none, name := "a", args := [], props := [], children := [] }]
    ∧ (readNodes 64 (wrapReader (asciiBytes "/* foo"))).1 = .ok [] :=
  ⟨rfl, rfl, rfl⟩

/-- Claim C5: every failure of readNodes surfaced by the document entry
point is enriched with the line and column of the positioned reader at the
point of failure, while the end-of-input signal at the valid stopping point
is converted to success; concretely, a semicolon reached on line 3 at
column 1 is reported at exactly that position, and a complete document ending
at end of input parses with no error. -/
theorem c5_error_position :
    (∀ fuel bytes e rf, readNodesAux fuel [] (wrapReader bytes) = (.error e, rf) →
        parseDocument fuel bytes = .error (e, rf.line, rf.pos))
    ∧ parseDocument 64 (asciiBytes "a\n") =
        .ok [{ typeHint := none, name := "a", args := [], props := [], children := [] }]
    ∧ parseDocument 64 [59] = .error (.unexpectedSemicolon, 1, 0) := by
  refine ⟨?_, rfl, rfl⟩
  intro fuel bytes e rf h
  unfold parseDocument
  rw [h]

/-- Witness for claim C5: the enrichment theorem applied to the concrete
document of two newlines, a space and a semicolon, whose failure point is
line 3, column 1. -/
theorem c5_error_position_witness :
    parseDocument 64 (asciiBytes "\n\n ;") = .error (.unexpectedSemicolon, 3, 1) :=
  c5_error_position.1 64 (asciiBytes "\n\n ;") .unexpectedSemicolon
    { buf := [59], line := 3, pos := 1, depth := 0 } rfl

/-- Claim C6, code evaluation: readRune advances one codepoint for a plain
rune and for a line feed (which increments the line and resets the column),
and a carriage return followed by a line feed leaves the line feed in the
stream so the pair counts as one line break over the two calls — but a
carriage return followed by any other rune consumes that rune as well: on
the two-byte stream of a carriage return and the letter x, one call empties
the whole stream. -/
theorem c6_readrune_eval :
    readRune (wrapReader [97, 98]) =
      (.ok 97, { buf := [98], line := 1, pos := 1, depth := 0 })
    ∧ readRune (wrapReader [10, 97]) =
        (.ok 10, { buf := [97], line := 2, pos := 0, depth := 0 })
    ∧ readRune (wrapReader [13, 10, 122]) =
        (.ok 13, { buf := [10, 122], line := 1, pos := 0, depth := 0 })
    ∧ readRune { buf := [10, 122], line := 1, pos := 0, depth := 0 } =
        (.ok 10, { buf := [122], line := 2, pos := 0, depth := 0 })
    ∧ readRune (wrapReader [13, 120]) =
        (.ok 13, { buf := [], line := 2, pos := 0, depth := 0 }) :=
  ⟨rfl, rfl, rfl, rfl, rfl⟩

/-- Claim C7: in argument-or-property position with no type hint, after an
equals-stop identifier read succeeds, a following valid terminator (or end
of input) yields a plain string argument when the identifier was quoted and
an unexpected-bare-identifier error when it was bare, while a following
equals sign is consumed and the value read after it is stored as a property
under the identifier. -/
theorem c7_arg_or_prop (fuel : Nat) (r r1 r2 : Rdr) (n : Node) (i : String) (q : Bool)
    (hh : readMaybeTypeHint fuel r = (.ok none, r1))
    (hi : readIdentifier fuel .stopModeEquals r1 = (.ok i, q, r2)) :
    (∀ ch, peekRune r2 = .ok ch → isValidValueTerminator ch = true →
       readArgOrProp fuel r n false =
         (if q = true then (.ok (addArgValue n (newStringValue i none)), r2)
          else (.error .unexpectedBareIdentifier, r2)))
    ∧ (peekRune r2 = .error .eof →
       readArgOrProp fuel r n false =
         (if q = true then (.ok (addArg n (newStringValue i none)), r2)
          else (.error .unexpectedBareIdentifier, r2)))
    ∧ (∀ v r3, peekRune r2 = .ok 61 → readValue fuel (discardByte r2) = (.ok v, r3) →
       readArgOrProp fuel r n false = (.ok (setPropValue n i v), r3)) := by
  refine ⟨?_, ?_, ?_⟩
  · intro ch hpeek hterm
    unfold readArgOrProp
    rw [hh]
    dsimp only
    rw [hi]
    dsimp only
    rw [hpeek]
    dsimp only
    rw [hterm]
    split <;> first | (exact absurd (Eq.refl true) (by assumption)) | simp
  · intro hpeek
    unfold readArgOrProp
    rw [hh]
    dsimp only
    rw [hi]
    dsimp only
    rw [hpeek]
    split <;> simp_all
  · intro v r3 hpeek hv
    unfold readArgOrProp
    rw [hh]
    dsimp only
    rw [hi]
    dsimp only
    rw [hpeek]
    simp [hv, show isValidValueTerminator 61 = false from rfl]

/-- Witness for claim C7: the quoted-identifier branch applied to the
concrete reader holding the quoted identifier val followed by a space — the
quoted text is added as a plain string argument. -/
theorem c7_arg_or_prop_witness :
    readArgOrProp 64 (wrapReader (asciiBytes "\"val\" x")) (newNode "") false =
      (.ok (addArgValue (newNode "") (newStringValue "val" none)),
       { buf := [32, 120], line := 1, pos := 5, depth := 0 }) :=
  (c7_arg_or_prop 64 (wrapReader (asciiBytes "\"val\" x"))
      (wrapReader (asciiBytes "\"val\" x"))
      { buf := [32, 120], line := 1, pos := 5, depth := 0 }
      (newNode "") "val" true rfl rfl).1 32 rfl rfl

/-- Claim C8, counterexample: a second backslash while a line continuation
is already pending does NOT cause the unexpected-significant-token-in-
escline error — inside a node, two backslashes followed by one newline are
both swallowed and skipping succeeds, positioned at the next significant
rune. -/
theorem c8_escline_counterexample :
    readUntilSignificant 64 true (wrapReader (asciiBytes "\\\\\nx")) =
      (.ok (), { buf := [120], line := 2, pos := 0, depth := 0 }) := rfl

/-- Claim C8 as amended: inside a node body a backslash followed (after
optional trailing whitespace) by a newline is swallowed; a backslash
followed by a significant token other than a further backslash is an
unexpected-significant-token-in-escline error; and a further backslash
while a continuation is pending is itself swallowed, keeping the
continuation pending rather than raising an error. -/
theorem c8_escline_amended :
    readUntilSignificant 64 true (wrapReader (asciiBytes "\\ \nnext")) =
      (.ok (), { buf := [110, 101, 120, 116], line := 2, pos := 0, depth := 0 })
    ∧ readUntilSignificant 64 true (wrapReader (asciiBytes "\\x")) =
        (.error .significantInCont, { buf := [120], line := 1, pos := 1, depth := 0 })
    ∧ readUntilSignificant 64 true (wrapReader (asciiBytes "\\\\ \nx")) =
        (.ok (), { buf := [120], line := 2, pos := 0, depth := 0 }) :=
  ⟨rfl, rfl, rfl⟩

/-- Claim C9: a slashdash suppresses exactly one following unit while still
parsing it: a suppressed node is parsed but not appended, a suppressed
argument and a suppressed property leave the node unchanged, a suppressed
children block leaves the children unattached, a syntax error inside a
suppressed unit still fails the parse, and in general the discard flag of
readArgOrProp changes nothing but the returned node. -/
theorem c9_slashdash :
    (readNodes 64 (wrapReader (asciiBytes "/-a\nb\n"))).1 =
      .ok [{ typeHint := none, name := "b", args := [], props := [], children := [] }]
    ∧ (readNodes 64 (wrapReader (asciiBytes "a\nb\n"))).1 =
        .ok [{ typeHint := none, name := "a", args := [], props := [], children := [] },
             { typeHint := none, name := "b", args := [], props := [], children := [] }]
    ∧ (readNodes 64 (wrapReader (asciiBytes "n /-1 2\n"))).1 =
        .ok [{ typeHint := none, name := "n",
               args := [{ typeHint := none, data := .int 2 }],
               props := [], children := [] }]
    ∧ (readNodes 64 (wrapReader (asciiBytes "n /-k=1 2\n"))).1 =
        .ok [{ typeHint := none, name := "n",
               args := [{ typeHint := none, data := .int 2 }],
               props := [], children := [] }]
    ∧ (readNodes 64 (wrapReader (asciiBytes "a /-\x7bb\x7d \nc\n"))).1 =
        .ok [{ typeHint := none, name := "a", args := [], props := [], children := [] },
             { typeHint := none, name := "c", args := [], props := [], children := [] }]
    ∧ (readNodes 64 (wrapReader (asciiBytes "/-(\n"))).1 = .error .invalidInitialChar
    ∧ (∀ fuel r n, readArgOrProp fuel r n true =
        ((readArgOrProp fuel r n false).1.map (fun _ => n),
         (readArgOrProp fuel r n false).2)) :=
  ⟨rfl, rfl, rfl, rfl, rfl, rfl, readArgOrProp_discard_eq⟩

/-- Claim C10: a single-line comment inside a node body consumes the line
break that ends it, so the newline is never seen by the terminator check of
readNode — the document with the node named node, the argument 1, a
trailing comment, and the token 2 on the next line parses as ONE node with
the two arguments 1 and 2, whereas without the comment the same two lines
fail because 2 would have to start a new node. -/
theorem c10_line_comment :
    (readNodes 64 (wrapReader (asciiBytes "node 1 // c\n2\n"))).1 =
      .ok [{ typeHint := none, name := "node",
             args := [{ typeHint := none, data := .int 1 },
                      { typeHint := none, data := .int 2 }],
             props := [], children := [] }]
    ∧ (readNodes 64 (wrapReader (asciiBytes "node 1\n2\n"))).1 =
        .error .invalidInitialChar :=
  ⟨rfl, rfl⟩

end Kdl
